import Mathlib

/-!
Verification development for the `infrarabbit` consumer reconnection state
machine and the `infraclickhouse` connection container.

The consumer engine (`Consumer.start`) is embedded as a deterministic
interpreter: the environment's behaviour (pool responses, close-signals,
heartbeat ticks, deliveries, application completion callbacks, the closing
flag being set) is a script of events, and the engine's observable behaviour
(log lines, backoff sleeps, pool close calls, spawned side tasks, in-flight
counter increments/decrements, pushes onto the output queue, the drain wait,
closing the output queue, firing the done signal) is a trace of actions.
Machine state that the Go code keeps in the `Consumer` struct or in loop-local
variables is carried explicitly in `LoopState`.
-/

namespace Infrarabbit

/-- Constants from the source file (durations in seconds). -/
def defaultPrefetchCount : Nat := 1

def defaultVHost : String := "/"

def defaultUser : String := "guest"

def defaultPassword : String := "guest"

def connCloseChanSize : Nat := 8096

def metricsIntervalCheckDefault : Int := 365 * 24 * 3600

def heartbeatIntervalCheck : Int := 1

/-- `heartbeatReconnectionInterval = 5 * time.Minute`, in seconds. -/
def heartbeatReconnectionInterval : Int := 5 * 60

/-- A broker-side error value (`*amqp.Error`); treated as abstract data. -/
structure AmqpErr where
  code : Nat
deriving DecidableEq, Repr

/-- One message read from the broker delivery stream (`amqp.Delivery`).
`timestamp` is the producer-stamped time in seconds. -/
structure Msg where
  body : Nat
  timestamp : Int
deriving DecidableEq, Repr

/-- The Delivery Envelope pushed to the application (`*Message`): the wrapped
message, the originating host and the queue name.  The completion callback is
modelled by `GenEvent.callbackDone` events in the script. -/
structure Envelope where
  msg : Msg
  host : String
  queue : String
deriving DecidableEq, Repr

/-- Optional metrics configuration (`ConsumerConfig.Metrics`): whether each
callback is configured, and the check interval in seconds (`0` = unset). -/
structure MetricsCfg where
  queueLength : Bool
  queueDelay : Bool
  checkInterval : Int
deriving DecidableEq, Repr

/-- The consumer configuration (`ConsumerConfig`). -/
structure ConsumerConfig where
  queue : String
  tag : String
  queuePriority : Nat
  prefetchCount : Nat
  metrics : Option MetricsCfg
deriving DecidableEq, Repr

/-- The metrics-ticker interval chosen in `Consumer.start`: the configured
check interval when positive, otherwise the effectively-never default. -/
def metricsInterval (cfg : ConsumerConfig) : Int :=
  match cfg.metrics with
  | none => metricsIntervalCheckDefault
  | some m => if 0 < m.checkInterval then m.checkInterval else metricsIntervalCheckDefault

/-- Static data of one engine run: the host derived from the connection
address and the queue name, both baked into every envelope. -/
structure Env where
  host : String
  queue : String
deriving DecidableEq, Repr

/-- Per-generation context: the acquired connection, the consumer channel, and
whether the engine subscribed to connection-level close-signals
(`connClose = conn.NotifyClose(...)`, done exactly when `isNewConn`). -/
structure GenCtx where
  conn : Nat
  chanId : Nat
  subConn : Bool
deriving DecidableEq, Repr

/-- `if isNewConn { connClose = conn.NotifyClose(...) }`: the generation
context built at the top of a serving generation. -/
def mkCtx (conn : Nat) (isNewConn : Bool) (chanId : Nat) : GenCtx :=
  { conn := conn, chanId := chanId, subConn := isNewConn }

/-- Mutable state of the engine, shared across generations:
`isClosed` (the closing flag), `inFlight` (the `itemsInProgress` wait-group
counter), and the per-generation `isNeedRecreateChannel` flag and
`lastTimeConnectionUsed` timestamp (reset at every generation start). -/
structure LoopState where
  isClosed : Bool
  inFlight : Int
  needRecreate : Bool
  lastUsed : Int
deriving DecidableEq, Repr

/-- The consumer's initial state: not closed, wait-group counter zero. -/
def initState : LoopState :=
  { isClosed := false, inFlight := 0, needRecreate := false, lastUsed := 0 }

/-- One event observed by the serving loop: a receive on a close-signal source
(`closeErr`, and whether the Go channel was still open), a heartbeat tick at
wall-clock `now`, a metrics tick, the delivery stream closing, a delivery at
time `now`, the application invoking a completion callback with `err`, or
`Close` setting the closing flag. -/
inductive GenEvent where
  | connClose (closeErr : Option AmqpErr) (isOpen : Bool)
  | chanClose (closeErr : Option AmqpErr) (isOpen : Bool)
  | heartbeat (now : Int)
  | metricsTick
  | deliveryClosed
  | delivery (msg : Msg) (now : Int)
  | callbackDone (err : Option AmqpErr)
  | setClosing
deriving DecidableEq, Repr

/-- Observable actions of the engine, in program order. -/
inductive Action where
  | logErr
  | sleepBackoff (secs : Nat)
  | closeConnection (conn : Nat)
  | closeChannel (chanId : Option Nat)
  | spawnDrain
  | spawnMetrics
  | incInFlight
  | decInFlight
  | push (env : Envelope)
  | waitInFlightZero
  | closeOutputQueue
  | signalDone
deriving DecidableEq, Repr

/-- Outcome of one select-arm: keep serving, or `continue reconnectLoop`. -/
inductive StepOut where
  | cont (s : LoopState)
  | restart (s : LoopState)
deriving DecidableEq, Repr

/-- The state carried by a step outcome. -/
def outSt : StepOut → LoopState
  | StepOut.cont s => s
  | StepOut.restart s => s

/-- One iteration of the inner `select` of `Consumer.start` (plus the
completion-callback closure and the closing flag assignment), translated
arm by arm from the source. -/
def serveStep (env : Env) (ctx : GenCtx) (s : LoopState) : GenEvent → StepOut × List Action
  | GenEvent.connClose closeErr isOpen =>
    if ctx.subConn = true then
      if closeErr.isSome = true ∨ isOpen = false then
        (StepOut.restart s,
          (if closeErr.isSome then [Action.logErr] else [])
            ++ [Action.spawnDrain, Action.closeConnection ctx.conn])
      else (StepOut.cont s, if closeErr.isSome then [Action.logErr] else [])
    else
      (StepOut.cont s, [])
  | GenEvent.chanClose closeErr isOpen =>
    if closeErr.isSome = true ∨ isOpen = false then
      (StepOut.restart s,
        (if closeErr.isSome then [Action.logErr] else [])
          ++ [Action.spawnDrain, Action.closeChannel (some ctx.chanId)])
    else (StepOut.cont s, if closeErr.isSome then [Action.logErr] else [])
  | GenEvent.heartbeat now =>
    if heartbeatReconnectionInterval < now - s.lastUsed ∨ s.needRecreate = true then
      (StepOut.restart s,
        (if s.needRecreate then [Action.logErr] else [])
          ++ [Action.closeChannel (some ctx.chanId)])
    else (StepOut.cont s, [])
  | GenEvent.metricsTick => (StepOut.cont s, [Action.spawnMetrics])
  | GenEvent.deliveryClosed => (StepOut.restart s, [Action.closeChannel (some ctx.chanId)])
  | GenEvent.delivery msg now =>
    (StepOut.cont { s with lastUsed := now, inFlight := s.inFlight + 1 },
      [Action.incInFlight,
       Action.push { msg := msg, host := env.host, queue := env.queue }])
  | GenEvent.callbackDone err =>
    (StepOut.cont { s with
        needRecreate := if err.isSome then true else s.needRecreate,
        inFlight := s.inFlight - 1 },
      (if err.isSome then [Action.logErr] else []) ++ [Action.decInFlight])
  | GenEvent.setClosing => (StepOut.cont { s with isClosed := true }, [])

/-- How a serving generation ended: `continue reconnectLoop` fired, the
closing flag was observed, or the script ran out (the select blocks). -/
inductive ServeExit where
  | restarted
  | closed
  | blocked
deriving DecidableEq, Repr

/-- The inner `for !c.isClosed { select { ... } }` loop of one generation. -/
def runServe (env : Env) (ctx : GenCtx) : LoopState → List GenEvent →
    LoopState × List Action × ServeExit
  | s, [] => if s.isClosed = true then (s, [], ServeExit.closed) else (s, [], ServeExit.blocked)
  | s, e :: rest =>
    if s.isClosed = true then (s, [], ServeExit.closed)
    else
      match serveStep env ctx s e with
      | (StepOut.cont s1, as) =>
        let r := runServe env ctx s1 rest
        (r.1, as ++ r.2.1, r.2.2)
      | (StepOut.restart s1, as) => (s1, as, ServeExit.restarted)

/-- `c.itemsInProgress.Wait()`: block until the wait-group counter reaches
zero.  The completion callbacks still outstanding when the loop exits are the
`cbs` script; each one decrements the counter (and logs when invoked with a
non-nil error).  Returns the emitted actions, the remaining counter value,
and whether the wait completed. -/
def drainWait : Int → List (Option AmqpErr) → List Action × Int × Bool
  | n, [] =>
    if n = 0 then ([Action.waitInFlightZero], 0, true) else ([], n, false)
  | n, cb :: rest =>
    if n = 0 then ([Action.waitInFlightZero], 0, true)
    else
      let r := drainWait (n - 1) rest
      ((if cb.isSome then [Action.logErr] else []) ++ Action.decInFlight :: r.1,
        r.2.1, r.2.2)

/-- Whether the whole run finished (drained and signalled done) or is still
blocked waiting on its environment. -/
inductive RunExit where
  | finished
  | blocked
deriving DecidableEq, Repr

/-- The epilogue of `Consumer.start` after the reconnect loop exits:
`itemsInProgress.Wait(); CloseConsumerChannel(channel); close(c.ch);
close(c.closed)`.  `lastChan` is the `channel` variable's current value
(`none` models a nil channel). -/
def finishRun (s : LoopState) (lastChan : Option Nat) (cbs : List (Option AmqpErr)) :
    LoopState × List Action × RunExit :=
  let r := drainWait s.inFlight cbs
  if r.2.2 = true then
    ({ s with inFlight := 0 },
      r.1 ++ [Action.closeChannel lastChan, Action.closeOutputQueue, Action.signalDone],
      RunExit.finished)
  else ({ s with inFlight := r.2.1 }, r.1, RunExit.blocked)

/-- One pass of the outer `reconnectLoop`: the pool either fails `Get`, fails
`CreateConsumerChannel` (after handing out `conn`), or succeeds and the
generation serves the given event script.  `startTime` is `time.Now()` at
`lastTimeConnectionUsed := time.Now()`. -/
inductive Gen where
  | getFail
  | chanFail (conn : Nat)
  | serve (conn : Nat) (isNewConn : Bool) (chanId : Nat) (startTime : Int)
      (events : List GenEvent)
deriving DecidableEq, Repr

/-- The whole of `Consumer.start`: the `reconnectLoop` over a script of
generations, followed by the drain epilogue once the closing flag is
observed.  Per the source: a failed `Get` logs (the unconditional pre-`Get`
log plus the error log) and sleeps one second; a failed
`CreateConsumerChannel` additionally closes the connection and leaves the
`channel` variable nil; a successful acquisition resets the per-generation
`isNeedRecreateChannel` flag and `lastTimeConnectionUsed`, subscribes to
connection close-signals exactly when `isNewConn`, and serves. -/
def runStart (env : Env) : LoopState → Option Nat → List Gen → List (Option AmqpErr) →
    LoopState × List Action × RunExit
  | s, lastChan, [], cbs =>
    if s.isClosed = true then finishRun s lastChan cbs
    else (s, [], RunExit.blocked)
  | s, lastChan, g :: rest, cbs =>
    if s.isClosed = true then finishRun s lastChan cbs
    else
      match g with
      | Gen.getFail =>
        let r := runStart env s lastChan rest cbs
        (r.1, Action.logErr :: Action.logErr :: Action.sleepBackoff 1 :: r.2.1, r.2.2)
      | Gen.chanFail conn =>
        let r := runStart env s none rest cbs
        (r.1,
          Action.logErr :: Action.logErr :: Action.logErr
            :: Action.closeConnection conn :: Action.sleepBackoff 1 :: r.2.1,
          r.2.2)
      | Gen.serve conn isNewConn chanId startTime events =>
        let ctx := mkCtx conn isNewConn chanId
        let s1 := { s with needRecreate := false, lastUsed := startTime }
        let sr := runServe env ctx s1 events
        match sr.2.2 with
        | ServeExit.restarted =>
          let r := runStart env sr.1 (some chanId) rest cbs
          (r.1, Action.logErr :: Action.logErr :: (sr.2.1 ++ r.2.1), r.2.2)
        | ServeExit.closed =>
          let fr := finishRun sr.1 (some chanId) cbs
          (fr.1, Action.logErr :: Action.logErr :: (sr.2.1 ++ fr.2.1), fr.2.2)
        | ServeExit.blocked =>
          (sr.1, Action.logErr :: Action.logErr :: sr.2.1, RunExit.blocked)

/-- `Consumer.Close()`: under the mutex, return nil at once if already
closed; otherwise set the closing flag, wait on the done signal, return nil.
Result: (new closing flag, returned error, whether the call blocked on the
done signal). -/
def Close (isClosed : Bool) : Bool × Option AmqpErr × Bool :=
  if isClosed = true then (true, none, false) else (true, none, true)

/-- `readAllErrors`: the fire-and-forget drain task ranges over the buffered
close-signal channel until it is empty and closed, discarding everything. -/
def readAllErrors (buffered : List (Option AmqpErr)) : List (Option AmqpErr) :=
  match buffered with
  | [] => []
  | _ :: rest => readAllErrors rest

/-- Result of `QueueDeclarePassive`: the queue's current message count. -/
structure QueueInfo where
  messages : Nat
deriving DecidableEq, Repr

/-- Broker-side responses seen by one `collectMetrics` invocation: whether the
channel pointer is nil, whether the channel reports closed, the passive
declare result (`none` = error), the `channel.Get` result (`none` = error,
`some none` = ok=false i.e. no message, `some (some ts)` = a message stamped
`ts`), and the current wall-clock time, in seconds. -/
structure Broker where
  chanIsNil : Bool
  chanIsClosed : Bool
  declareRes : Option QueueInfo
  getRes : Option (Option Int)
  now : Int
deriving DecidableEq, Repr

/-- Observable outputs of the metrics sampler: the queue-length callback, the
queue-delay callback, the requeueing reject of the peeked message, and the
log emitted by the recover handler. -/
inductive MetricsOut where
  | lenCall (host : String) (queue : String) (v : Int)
  | delayCall (host : String) (queue : String) (v : Int)
  | rejectRequeue
  | logPanic
deriving DecidableEq, Repr

/-- `collectMetrics`, translated line by line from the source: no-op unless
the channel is non-nil, not closed and metrics are configured; bail out on a
passive-declare error; report queue length when that callback exists; stop if
no delay callback; report delay 0 for an empty queue; otherwise fetch without
ack, and on success compute the elapsed seconds, requeue the message, and
report the delay only when it is non-negative. -/
def collectMetrics (cfg : ConsumerConfig) (b : Broker) (host : String) (queue : String) :
    List MetricsOut :=
  match cfg.metrics with
  | none => []
  | some m =>
    if b.chanIsNil = true ∨ b.chanIsClosed = true then []
    else
      match b.declareRes with
      | none => []
      | some q =>
        let lenOut :=
          if m.queueLength then [MetricsOut.lenCall host queue (Int.ofNat q.messages)] else []
        if m.queueDelay = false then lenOut
        else if q.messages = 0 then lenOut ++ [MetricsOut.delayCall host queue 0]
        else
          match b.getRes with
          | none => lenOut
          | some none => lenOut
          | some (some ts) =>
            lenOut ++ MetricsOut.rejectRequeue ::
              (if 0 ≤ b.now - ts then [MetricsOut.delayCall host queue (b.now - ts)] else [])

/-- How the body of the spawned metrics task ended: ran to completion having
emitted `outs`, or panicked after emitting `outs`. -/
inductive TaskResult where
  | completed (outs : List MetricsOut)
  | panicked (outs : List MetricsOut)
deriving DecidableEq, Repr

/-- The `defer { recover() }` wrapper around `collectMetrics`: a completed
body's outputs pass through; a panic is recovered and turned into a log
line.  Every task result is a plain output list - nothing propagates. -/
def recoverWrap : TaskResult → List MetricsOut
  | TaskResult.completed outs => outs
  | TaskResult.panicked outs => outs ++ [MetricsOut.logPanic]

/-- Trace counters used by the invariants below. -/
def isIncAct : Action → Bool
  | Action.incInFlight => true
  | _ => false

def isDecAct : Action → Bool
  | Action.decInFlight => true
  | _ => false

def isPushAct : Action → Bool
  | Action.push _ => true
  | _ => false

def isSleepAct : Action → Bool
  | Action.sleepBackoff _ => true
  | _ => false

def isCloseConnAct : Action → Bool
  | Action.closeConnection _ => true
  | _ => false

/-- Number of `itemsInProgress.Add(1)` calls in a trace. -/
def trInc (tr : List Action) : Nat := tr.countP isIncAct

/-- Number of `itemsInProgress.Done()` calls in a trace. -/
def trDec (tr : List Action) : Nat := tr.countP isDecAct

/-- Number of envelopes pushed onto the output queue in a trace. -/
def trPush (tr : List Action) : Nat := tr.countP isPushAct

/-- Number of backoff sleeps in a trace. -/
def trSleep (tr : List Action) : Nat := tr.countP isSleepAct

/-- Generations on which acquisition fails. -/
def isFailGen : Gen → Bool
  | Gen.getFail => true
  | Gen.chanFail _ => true
  | _ => false

end Infrarabbit

namespace Infraclickhouse

/-- A database error value; `wrapf` models `errors.Wrapf`. -/
structure ChErr where
  msg : String
deriving DecidableEq, Repr

def wrapf (e : ChErr) (ctx : String) : ChErr := { msg := ctx ++ ": " ++ e.msg }

/-- The clickhouse connection configuration, with only the fields the
container code reads.  `dsn` stands for whatever `GetConnectionDSN` computes
from the config (config plumbing, outside the core). -/
structure ConnectionConfig where
  dsn : String
  maxConnections : Int
  maxIdleConnections : Int
  maxConnectionIdleTime : Int
  maxConnectionLifetime : Int
deriving DecidableEq, Repr

/-- Modelled from the spec: configuration parsing is out-of-scope plumbing,
so the DSN accessor is the stored DSN string itself. -/
def GetConnectionDSN (cfg : ConnectionConfig) : String := cfg.dsn

/-- The container's three name-keyed maps, as association lists.  Connections
and collectors are identified by numeric handles. -/
structure Container where
  cfg : List (String × ConnectionConfig)
  conns : List (String × Nat)
  collectors : List (String × Nat)
deriving DecidableEq, Repr

def NewContainer : Container := { cfg := [], conns := [], collectors := [] }

/-- Go map assignment `m[name] = v` on an association-list map. -/
def mapSet {α : Type} (l : List (String × α)) (name : String) (v : α) :
    List (String × α) :=
  match l with
  | [] => [(name, v)]
  | (k, w) :: r => if k = name then (k, v) :: r else (k, w) :: mapSet r name v

/-- `Container.Get`. -/
def Get (cont : Container) (name : String) : Option Nat :=
  List.lookup name cont.conns

/-- `Container.GetCollector`. -/
def GetCollector (cont : Container) (name : String) : Option Nat :=
  List.lookup name cont.collectors

/-- Driver-level and prometheus-level side effects of `Connect`, in program
order: applying the pool settings to the connection handle, unregistering a
previous collector, registering the new one. -/
inductive RegAction where
  | setConnParams (conn : Nat)
  | unregister (id : Nat)
  | register (id : Nat)
deriving DecidableEq, Repr

/-- `Container.Connect`: open the driver on the config's DSN, ping, apply the
connection pool settings, swap the prometheus collector, and store config,
connection and collector under `name`.  The driver is a parameter: `openF`
maps a DSN to a connection handle or an error, `pingF` pings a handle;
`newCollector` is the handle `sqlstats.NewStatsCollector` would produce.
Returns the updated container, the returned error, and the side effects. -/
def Connect (cont : Container) (name : String) (cfg : ConnectionConfig)
    (openF : String → Except ChErr Nat) (pingF : Nat → Except ChErr Unit)
    (newCollector : Nat) : Container × Option ChErr × List RegAction :=
  let dsn := GetConnectionDSN cfg
  match openF dsn with
  | Except.error e => (cont, some (wrapf e "sql.Open"), [])
  | Except.ok conn =>
    match pingF conn with
    | Except.error e => (cont, some (wrapf e "conn.Ping"), [])
    | Except.ok _ =>
      let unreg :=
        match GetCollector cont name with
        | some old => [RegAction.unregister old]
        | none => []
      ({ cfg := mapSet cont.cfg name cfg,
         conns := mapSet cont.conns name conn,
         collectors := mapSet cont.collectors name newCollector },
        none,
        RegAction.setConnParams conn :: (unreg ++ [RegAction.register newCollector]))

end Infraclickhouse

namespace Infrarabbit

/-! ### Helper lemmas about the serving step and trace counters -/

theorem countP_append_eq (p : Action → Bool) (a b : List Action) :
    (a ++ b).countP p = a.countP p + b.countP p := List.countP_append p a b

theorem serveStep_flow (env : Env) (ctx : GenCtx) (s : LoopState) (e : GenEvent) :
    ((outSt (serveStep env ctx s e).1).inFlight : Int)
        + (trDec (serveStep env ctx s e).2 : Int)
      = s.inFlight + (trInc (serveStep env ctx s e).2 : Int) := by
  cases e
  all_goals simp only [serveStep, trInc, trDec]
  all_goals repeat' split
  all_goals
    simp [outSt, List.countP_cons, List.countP_nil, List.countP_append,
      isIncAct, isDecAct]

theorem serveStep_push_eq_inc (env : Env) (ctx : GenCtx) (s : LoopState) (e : GenEvent) :
    trPush (serveStep env ctx s e).2 = trInc (serveStep env ctx s e).2 := by
  cases e
  all_goals simp only [serveStep, trPush, trInc]
  all_goals repeat' split
  all_goals
    simp [List.countP_cons, List.countP_nil, List.countP_append, isIncAct, isPushAct]

theorem serveStep_no_sleep (env : Env) (ctx : GenCtx) (s : LoopState) (e : GenEvent) :
    trSleep (serveStep env ctx s e).2 = 0 := by
  cases e
  all_goals simp only [serveStep, trSleep]
  all_goals repeat' split
  all_goals
    simp [List.countP_cons, List.countP_nil, List.countP_append, isSleepAct]

theorem serveStep_keeps_closed (env : Env) (ctx : GenCtx) (s : LoopState) (e : GenEvent)
    (hne : e ≠ GenEvent.setClosing) :
    (outSt (serveStep env ctx s e).1).isClosed = s.isClosed := by
  cases e
  all_goals simp only [serveStep]
  all_goals repeat' split
  all_goals simp [outSt]
  all_goals simp at hne

theorem serveStep_no_closeConn (env : Env) (ctx : GenCtx) (s : LoopState) (e : GenEvent)
    (h : ctx.subConn = false) :
    (serveStep env ctx s e).2.countP isCloseConnAct = 0 := by
  cases e
  all_goals simp only [serveStep, h]
  all_goals repeat' split
  all_goals
    simp [List.countP_cons, List.countP_nil, List.countP_append, isCloseConnAct]
  all_goals simp_all

/-- The wait-group counter after a serving run balances the increments and
decrements recorded in its trace. -/
theorem runServe_flow (env : Env) (ctx : GenCtx) :
    ∀ (evs : List GenEvent) (s : LoopState),
      ((runServe env ctx s evs).1.inFlight : Int)
          + (trDec (runServe env ctx s evs).2.1 : Int)
        = s.inFlight + (trInc (runServe env ctx s evs).2.1 : Int) := by
  intro evs
  induction evs with
  | nil =>
    intro s
    cases hcl : s.isClosed
    all_goals simp [runServe, hcl, trInc, trDec]
  | cons e rest ih =>
    intro s
    cases hcl : s.isClosed
    case true => simp [runServe, hcl, trInc, trDec]
    case false =>
      have hstep := serveStep_flow env ctx s e
      rcases hs : serveStep env ctx s e with ⟨o, as⟩
      rw [hs] at hstep
      cases o with
      | cont s1 =>
        have ih1 := ih s1
        simp only [runServe, hcl, Bool.false_eq_true, if_false, hs, outSt] at *
        simp only [trInc, trDec, List.countP_append] at *
        omega
      | restart s1 =>
        simp only [runServe, hcl, Bool.false_eq_true, if_false, hs, outSt] at *
        omega

/-- Every push in a serving trace comes with its increment. -/
theorem runServe_push_eq_inc (env : Env) (ctx : GenCtx) :
    ∀ (evs : List GenEvent) (s : LoopState),
      trPush (runServe env ctx s evs).2.1 = trInc (runServe env ctx s evs).2.1 := by
  intro evs
  induction evs with
  | nil =>
    intro s
    cases hcl : s.isClosed
    all_goals simp [runServe, hcl, trInc, trPush]
  | cons e rest ih =>
    intro s
    cases hcl : s.isClosed
    case true => simp [runServe, hcl, trInc, trPush]
    case false =>
      have hstep := serveStep_push_eq_inc env ctx s e
      rcases hs : serveStep env ctx s e with ⟨o, as⟩
      rw [hs] at hstep
      cases o with
      | cont s1 =>
        have ih1 := ih s1
        simp only [runServe, hcl, Bool.false_eq_true, if_false, hs] at *
        simp only [trInc, trPush, List.countP_append] at *
        omega
      | restart s1 =>
        simp only [runServe, hcl, Bool.false_eq_true, if_false, hs] at *
        omega

/-- The serving loop never sleeps: backoff happens only in `ACQUIRING`. -/
theorem runServe_no_sleep (env : Env) (ctx : GenCtx) :
    ∀ (evs : List GenEvent) (s : LoopState),
      trSleep (runServe env ctx s evs).2.1 = 0 := by
  intro evs
  induction evs with
  | nil =>
    intro s
    cases hcl : s.isClosed
    all_goals simp [runServe, hcl, trSleep]
  | cons e rest ih =>
    intro s
    cases hcl : s.isClosed
    case true => simp [runServe, hcl, trSleep]
    case false =>
      have hstep := serveStep_no_sleep env ctx s e
      rcases hs : serveStep env ctx s e with ⟨o, as⟩
      rw [hs] at hstep
      cases o with
      | cont s1 =>
        have ih1 := ih s1
        simp only [runServe, hcl, Bool.false_eq_true, if_false, hs] at *
        simp only [trSleep, List.countP_append] at *
        omega
      | restart s1 =>
        simp only [runServe, hcl, Bool.false_eq_true, if_false, hs] at *
        omega

/-- Without a connection close-signal subscription, a serving run never asks
the pool to close the connection. -/
theorem runServe_no_closeConn (env : Env) (ctx : GenCtx) (h : ctx.subConn = false) :
    ∀ (evs : List GenEvent) (s : LoopState),
      (runServe env ctx s evs).2.1.countP isCloseConnAct = 0 := by
  intro evs
  induction evs with
  | nil =>
    intro s
    cases hcl : s.isClosed
    all_goals simp [runServe, hcl]
  | cons e rest ih =>
    intro s
    cases hcl : s.isClosed
    case true => simp [runServe, hcl]
    case false =>
      have hstep := serveStep_no_closeConn env ctx s e h
      rcases hs : serveStep env ctx s e with ⟨o, as⟩
      rw [hs] at hstep
      cases o with
      | cont s1 =>
        have ih1 := ih s1
        simp only [runServe, hcl, Bool.false_eq_true, if_false, hs] at *
        simp only [List.countP_append] at *
        omega
      | restart s1 =>
        simp only [runServe, hcl, Bool.false_eq_true, if_false, hs] at *
        omega

/-- The drain wait balances the counter against its decrements, and emits no
increments, pushes, backoff sleeps or connection closes. -/
theorem drainWait_flow :
    ∀ (cbs : List (Option AmqpErr)) (n : Int),
      ((drainWait n cbs).2.1 + (trDec (drainWait n cbs).1 : Int) = n)
      ∧ trInc (drainWait n cbs).1 = 0
      ∧ trPush (drainWait n cbs).1 = 0
      ∧ trSleep (drainWait n cbs).1 = 0
      ∧ (drainWait n cbs).1.countP isCloseConnAct = 0 := by
  intro cbs
  induction cbs with
  | nil =>
    intro n
    by_cases h : n = 0
    all_goals
      simp [drainWait, h, trInc, trDec, trPush, trSleep, List.countP_cons,
        isIncAct, isDecAct, isPushAct, isSleepAct, isCloseConnAct]
  | cons cb rest ih =>
    intro n
    by_cases h : n = 0
    · simp [drainWait, h, trInc, trDec, trPush, trSleep, List.countP_cons,
        isIncAct, isDecAct, isPushAct, isSleepAct, isCloseConnAct]
    · have ih1 := ih (n - 1)
      rcases hdw : drainWait (n - 1) rest with ⟨as, n1, ok⟩
      rw [hdw] at ih1
      simp only [trInc, trDec, trPush, trSleep, List.countP_append,
        List.countP_cons, List.countP_nil, isIncAct, isDecAct, isPushAct,
        isSleepAct, isCloseConnAct] at ih1
      obtain ⟨ihf, ihi, ihp, ihs, ihc⟩ := ih1
      cases hcb : cb.isSome
      all_goals
        simp only [drainWait, h, if_false, hcb, Bool.false_eq_true,
          Bool.true_eq_false, if_true, hdw]
      all_goals
        simp [trInc, trDec, trPush, trSleep, List.countP_cons,
          List.countP_append, isIncAct, isDecAct, isPushAct, isSleepAct,
          isCloseConnAct, List.countP_eq_zero] at ihi ihp ihs ihc ⊢
      all_goals
        refine ⟨by omega, ?_, ?_, ?_, ?_⟩
      all_goals intro a ha
      all_goals first
        | exact ihi a ha
        | exact ihp a ha
        | exact ihs a ha
        | exact ihc a ha

/-- When the drain wait completes, the counter is zero and the wait marker is
the last action it emitted. -/
theorem drainWait_ok :
    ∀ (cbs : List (Option AmqpErr)) (n : Int),
      (drainWait n cbs).2.2 = true →
      (drainWait n cbs).2.1 = 0
      ∧ ∃ pre, (drainWait n cbs).1 = pre ++ [Action.waitInFlightZero] := by
  intro cbs
  induction cbs with
  | nil =>
    intro n hok
    by_cases h : n = 0
    · refine ⟨by simp [drainWait, h], [], by simp [drainWait, h]⟩
    · simp [drainWait, h] at hok
  | cons cb rest ih =>
    intro n hok
    by_cases h : n = 0
    · refine ⟨by simp [drainWait, h], [], by simp [drainWait, h]⟩
    · have hrec : (drainWait (n - 1) rest).2.2 = true := by
        simp only [drainWait, h, if_false] at hok
        simpa using hok
      obtain ⟨h0, pre, hpre⟩ := ih (n - 1) hrec
      refine ⟨by simp only [drainWait, h, if_false]; simpa using h0, ?_⟩
      refine ⟨(if cb.isSome then [Action.logErr] else []) ++ Action.decInFlight :: pre, ?_⟩
      simp only [drainWait, h, if_false]
      simp [hpre]

/-- When `finishRun` reports `finished`, the counter drained to zero and the
trace ends with the wait marker, the channel release, the output-queue close
and the done signal, in that order. -/
theorem finishRun_finished (s : LoopState) (lastChan : Option Nat)
    (cbs : List (Option AmqpErr)) :
    (finishRun s lastChan cbs).2.2 = RunExit.finished →
    (finishRun s lastChan cbs).1.inFlight = 0
    ∧ ∃ t, (finishRun s lastChan cbs).2.1
        = t ++ [Action.waitInFlightZero, Action.closeChannel lastChan,
                Action.closeOutputQueue, Action.signalDone] := by
  intro hfin
  rcases hdw : drainWait s.inFlight cbs with ⟨as, n1, ok⟩
  cases ok
  case false => simp [finishRun, hdw] at hfin
  case true =>
    have hok := drainWait_ok cbs s.inFlight
    rw [hdw] at hok
    obtain ⟨h0, pre, hpre⟩ := hok rfl
    refine ⟨by simp [finishRun, hdw], pre, ?_⟩
    simp [finishRun, hdw, hpre]

theorem tr_counts_tail (as : List Action) (lc : Option Nat) :
    trInc (as ++ [Action.closeChannel lc, Action.closeOutputQueue, Action.signalDone])
        = trInc as
    ∧ trDec (as ++ [Action.closeChannel lc, Action.closeOutputQueue, Action.signalDone])
        = trDec as
    ∧ trPush (as ++ [Action.closeChannel lc, Action.closeOutputQueue, Action.signalDone])
        = trPush as
    ∧ trSleep (as ++ [Action.closeChannel lc, Action.closeOutputQueue, Action.signalDone])
        = trSleep as := by
  simp [trInc, trDec, trPush, trSleep, List.countP_append, List.countP_cons,
    List.countP_nil, isIncAct, isDecAct, isPushAct, isSleepAct]

/-- `finishRun` balances the counter and emits no increments, pushes or
sleeps. -/
theorem finishRun_flow (s : LoopState) (lastChan : Option Nat)
    (cbs : List (Option AmqpErr)) :
    (((finishRun s lastChan cbs).1.inFlight : Int)
        + (trDec (finishRun s lastChan cbs).2.1 : Int)
      = s.inFlight + (trInc (finishRun s lastChan cbs).2.1 : Int))
    ∧ trPush (finishRun s lastChan cbs).2.1 = trInc (finishRun s lastChan cbs).2.1
    ∧ trSleep (finishRun s lastChan cbs).2.1 = 0 := by
  have hdwf := drainWait_flow cbs s.inFlight
  have hok := drainWait_ok cbs s.inFlight
  rcases hdw : drainWait s.inFlight cbs with ⟨as, n1, ok⟩
  rw [hdw] at hdwf hok
  try dsimp only at hdwf hok
  obtain ⟨hf1, hf2, hf3, hf4, hf5⟩ := hdwf
  cases ok
  case false =>
    simp only [finishRun, hdw, Bool.false_eq_true, if_false]
    refine ⟨?_, ?_, ?_⟩ <;> (try dsimp only) <;> omega
  case true =>
    obtain ⟨h0, pre, hpre⟩ := hok rfl
    have h0n : n1 = 0 := by simpa using h0
    obtain ⟨t1, t2, t3, t4⟩ := tr_counts_tail as lastChan
    simp only [finishRun, hdw, if_true]
    refine ⟨?_, ?_, ?_⟩ <;> (try dsimp only) <;> simp only [t1, t2, t3, t4] <;> omega

theorem no_sleep_of_trSleep_zero (tr : List Action) (h : trSleep tr = 0) (k : Nat) :
    Action.sleepBackoff k ∉ tr := by
  intro hmem
  have hall := List.countP_eq_zero.mp h (Action.sleepBackoff k) hmem
  simp [isSleepAct] at hall

/-- The wait-group counter at the end of a whole run balances the increments
and decrements recorded in its trace. -/
theorem runStart_flow (env : Env) :
    ∀ (gens : List Gen) (s : LoopState) (lastChan : Option Nat)
      (cbs : List (Option AmqpErr)),
      ((runStart env s lastChan gens cbs).1.inFlight : Int)
          + (trDec (runStart env s lastChan gens cbs).2.1 : Int)
        = s.inFlight + (trInc (runStart env s lastChan gens cbs).2.1 : Int) := by
  intro gens
  induction gens with
  | nil =>
    intro s lastChan cbs
    cases hcl : s.isClosed
    case false => simp [runStart, hcl, trInc, trDec]
    case true =>
      simp only [runStart, hcl, if_true]
      exact (finishRun_flow s lastChan cbs).1
  | cons g rest ih =>
    intro s lastChan cbs
    cases hcl : s.isClosed
    case true =>
      simp only [runStart, hcl, if_true]
      exact (finishRun_flow s lastChan cbs).1
    case false =>
      cases g with
      | getFail =>
        have ih1 := ih s lastChan cbs
        simp only [runStart, hcl, Bool.false_eq_true, if_false]
        simp only [trInc, trDec, List.countP_cons, isIncAct, isDecAct] at *
        try simp
        omega
      | chanFail conn =>
        have ih1 := ih s none cbs
        simp only [runStart, hcl, Bool.false_eq_true, if_false]
        simp only [trInc, trDec, List.countP_cons, isIncAct, isDecAct] at *
        try simp
        omega
      | serve conn isNewConn chanId startTime events =>
        have hsf := runServe_flow env (mkCtx conn isNewConn chanId) events
          { s with needRecreate := false, lastUsed := startTime }
        rcases hsr : runServe env (mkCtx conn isNewConn chanId)
            { s with needRecreate := false, lastUsed := startTime } events
          with ⟨s2, tr2, ex⟩
        rw [hsr] at hsf
        try dsimp only at hsf
        simp only [hcl] at hsr
        cases ex
        case restarted =>
          have ih1 := ih s2 (some chanId) cbs
          simp only [runStart, hcl, Bool.false_eq_true, if_false, hsr]
          try dsimp only
          simp only [trInc, trDec, List.countP_cons, List.countP_append,
            isIncAct, isDecAct] at *
          try simp
          omega
        case closed =>
          have hf := (finishRun_flow s2 (some chanId) cbs).1
          simp only [runStart, hcl, Bool.false_eq_true, if_false, hsr]
          try dsimp only
          simp only [trInc, trDec, List.countP_cons, List.countP_append,
            isIncAct, isDecAct] at *
          try simp
          omega
        case blocked =>
          simp only [runStart, hcl, Bool.false_eq_true, if_false, hsr]
          try dsimp only
          simp only [trInc, trDec, List.countP_cons, List.countP_append,
            isIncAct, isDecAct] at *
          try simp
          omega

/-- Every push in a whole-run trace is matched by an increment. -/
theorem runStart_push_eq_inc (env : Env) :
    ∀ (gens : List Gen) (s : LoopState) (lastChan : Option Nat)
      (cbs : List (Option AmqpErr)),
      trPush (runStart env s lastChan gens cbs).2.1
        = trInc (runStart env s lastChan gens cbs).2.1 := by
  intro gens
  induction gens with
  | nil =>
    intro s lastChan cbs
    cases hcl : s.isClosed
    case false => simp [runStart, hcl, trInc, trPush]
    case true =>
      simp only [runStart, hcl, if_true]
      exact (finishRun_flow s lastChan cbs).2.1
  | cons g rest ih =>
    intro s lastChan cbs
    cases hcl : s.isClosed
    case true =>
      simp only [runStart, hcl, if_true]
      exact (finishRun_flow s lastChan cbs).2.1
    case false =>
      cases g with
      | getFail =>
        have ih1 := ih s lastChan cbs
        simp only [runStart, hcl, Bool.false_eq_true, if_false]
        simp only [trInc, trPush, List.countP_cons, isIncAct, isPushAct] at *
        try simp
        omega
      | chanFail conn =>
        have ih1 := ih s none cbs
        simp only [runStart, hcl, Bool.false_eq_true, if_false]
        simp only [trInc, trPush, List.countP_cons, isIncAct, isPushAct] at *
        try simp
        omega
      | serve conn isNewConn chanId startTime events =>
        have hsf := runServe_push_eq_inc env (mkCtx conn isNewConn chanId) events
          { s with needRecreate := false, lastUsed := startTime }
        rcases hsr : runServe env (mkCtx conn isNewConn chanId)
            { s with needRecreate := false, lastUsed := startTime } events
          with ⟨s2, tr2, ex⟩
        rw [hsr] at hsf
        try dsimp only at hsf
        simp only [hcl] at hsr
        cases ex
        case restarted =>
          have ih1 := ih s2 (some chanId) cbs
          simp only [runStart, hcl, Bool.false_eq_true, if_false, hsr]
          try dsimp only
          simp only [trInc, trPush, List.countP_cons, List.countP_append,
            isIncAct, isPushAct] at *
          try simp
          omega
        case closed =>
          have hf := (finishRun_flow s2 (some chanId) cbs).2.1
          simp only [runStart, hcl, Bool.false_eq_true, if_false, hsr]
          try dsimp only
          simp only [trInc, trPush, List.countP_cons, List.countP_append,
            isIncAct, isPushAct] at *
          try simp
          omega
        case blocked =>
          simp only [runStart, hcl, Bool.false_eq_true, if_false, hsr]
          try dsimp only
          simp only [trInc, trPush, List.countP_cons, List.countP_append,
            isIncAct, isPushAct] at *
          try simp
          omega

/-- Every backoff sleep in a whole-run trace is the fixed one-second sleep:
there is no exponential backoff anywhere. -/
theorem runStart_sleep_one (env : Env) :
    ∀ (gens : List Gen) (s : LoopState) (lastChan : Option Nat)
      (cbs : List (Option AmqpErr)) (k : Nat),
      Action.sleepBackoff k ∈ (runStart env s lastChan gens cbs).2.1 → k = 1 := by
  intro gens
  induction gens with
  | nil =>
    intro s lastChan cbs k hmem
    cases hcl : s.isClosed
    case false => simp [runStart, hcl] at hmem
    case true =>
      simp only [runStart] at hmem
      simp only [hcl, if_true] at hmem
      exact absurd hmem
        (no_sleep_of_trSleep_zero _ (finishRun_flow s lastChan cbs).2.2 k)
  | cons g rest ih =>
    intro s lastChan cbs k hmem
    cases hcl : s.isClosed
    case true =>
      simp only [runStart] at hmem
      simp only [hcl, if_true] at hmem
      exact absurd hmem
        (no_sleep_of_trSleep_zero _ (finishRun_flow s lastChan cbs).2.2 k)
    case false =>
      cases g with
      | getFail =>
        simp only [runStart] at hmem
        simp only [hcl, Bool.false_eq_true, if_false] at hmem
        try dsimp only at hmem
        simp only [List.mem_cons] at hmem
        rcases hmem with h | h | h | h
        · exact absurd h (by simp)
        · exact absurd h (by simp)
        · injection h
        · exact ih s lastChan cbs k h
      | chanFail conn =>
        simp only [runStart] at hmem
        simp only [hcl, Bool.false_eq_true, if_false] at hmem
        try dsimp only at hmem
        simp only [List.mem_cons] at hmem
        rcases hmem with h | h | h | h | h | h
        · exact absurd h (by simp)
        · exact absurd h (by simp)
        · exact absurd h (by simp)
        · exact absurd h (by simp)
        · injection h
        · exact ih s none cbs k h
      | serve conn isNewConn chanId startTime events =>
        have hns := runServe_no_sleep env (mkCtx conn isNewConn chanId) events
          { s with needRecreate := false, lastUsed := startTime }
        rcases hsr : runServe env (mkCtx conn isNewConn chanId)
            { s with needRecreate := false, lastUsed := startTime } events
          with ⟨s2, tr2, ex⟩
        rw [hsr] at hns
        try dsimp only at hns
        simp only [hcl] at hsr
        simp only [runStart] at hmem
        simp only [hcl, Bool.false_eq_true, if_false, hsr] at hmem
        cases ex
        case restarted =>
          try dsimp only at hmem
          simp only [List.mem_cons, List.mem_append] at hmem
          rcases hmem with h | h | h | h
          · exact absurd h (by simp)
          · exact absurd h (by simp)
          · exact absurd h (no_sleep_of_trSleep_zero tr2 hns k)
          · exact ih s2 (some chanId) cbs k h
        case closed =>
          try dsimp only at hmem
          simp only [List.mem_cons, List.mem_append] at hmem
          rcases hmem with h | h | h | h
          · exact absurd h (by simp)
          · exact absurd h (by simp)
          · exact absurd h (no_sleep_of_trSleep_zero tr2 hns k)
          · exact absurd h
              (no_sleep_of_trSleep_zero _ (finishRun_flow s2 (some chanId) cbs).2.2 k)
        case blocked =>
          try dsimp only at hmem
          simp only [List.mem_cons, List.mem_append] at hmem
          rcases hmem with h | h | h
          · exact absurd h (by simp)
          · exact absurd h (by simp)
          · exact absurd h (no_sleep_of_trSleep_zero tr2 hns k)

/-- A finished run drained the counter to zero and its trace ends with the
wait marker, the final channel release, the output-queue close and the done
signal, in that order. -/
theorem runStart_finished_shape (env : Env) :
    ∀ (gens : List Gen) (s : LoopState) (lastChan : Option Nat)
      (cbs : List (Option AmqpErr)),
      (runStart env s lastChan gens cbs).2.2 = RunExit.finished →
      (runStart env s lastChan gens cbs).1.inFlight = 0
      ∧ ∃ t l, (runStart env s lastChan gens cbs).2.1
          = t ++ [Action.waitInFlightZero, Action.closeChannel l,
                  Action.closeOutputQueue, Action.signalDone] := by
  intro gens
  induction gens with
  | nil =>
    intro s lastChan cbs hfin
    cases hcl : s.isClosed
    case false => simp [runStart, hcl] at hfin
    case true =>
      simp only [runStart] at hfin ⊢
      simp only [hcl, if_true] at hfin ⊢
      obtain ⟨h0, t, ht⟩ := finishRun_finished s lastChan cbs hfin
      exact ⟨h0, t, lastChan, ht⟩
  | cons g rest ih =>
    intro s lastChan cbs hfin
    cases hcl : s.isClosed
    case true =>
      simp only [runStart] at hfin ⊢
      simp only [hcl, if_true] at hfin ⊢
      obtain ⟨h0, t, ht⟩ := finishRun_finished s lastChan cbs hfin
      exact ⟨h0, t, lastChan, ht⟩
    case false =>
      cases g with
      | getFail =>
        simp only [runStart] at hfin ⊢
        simp only [hcl, Bool.false_eq_true, if_false] at hfin ⊢
        try dsimp only at hfin ⊢
        obtain ⟨h0, t, l, ht⟩ := ih s lastChan cbs hfin
        refine ⟨h0, Action.logErr :: Action.logErr :: Action.sleepBackoff 1 :: t, l, ?_⟩
        simp [ht]
      | chanFail conn =>
        simp only [runStart] at hfin ⊢
        simp only [hcl, Bool.false_eq_true, if_false] at hfin ⊢
        try dsimp only at hfin ⊢
        obtain ⟨h0, t, l, ht⟩ := ih s none cbs hfin
        refine ⟨h0, Action.logErr :: Action.logErr :: Action.logErr
          :: Action.closeConnection conn :: Action.sleepBackoff 1 :: t, l, ?_⟩
        simp [ht]
      | serve conn isNewConn chanId startTime events =>
        rcases hsr : runServe env (mkCtx conn isNewConn chanId)
            { s with needRecreate := false, lastUsed := startTime } events
          with ⟨s2, tr2, ex⟩
        simp only [hcl] at hsr
        simp only [runStart] at hfin ⊢
        simp only [hcl, Bool.false_eq_true, if_false, hsr] at hfin ⊢
        cases ex
        case restarted =>
          try dsimp only at hfin ⊢
          obtain ⟨h0, t, l, ht⟩ := ih s2 (some chanId) cbs hfin
          refine ⟨h0, Action.logErr :: Action.logErr :: (tr2 ++ t), l, ?_⟩
          simp [ht]
        case closed =>
          try dsimp only at hfin ⊢
          obtain ⟨h0, t, ht⟩ := finishRun_finished s2 (some chanId) cbs hfin
          refine ⟨h0, Action.logErr :: Action.logErr :: (tr2 ++ t), some chanId, ?_⟩
          simp [ht]
        case blocked =>
          try dsimp only at hfin
          simp at hfin

/-- The asynchronous drain task leaves the buffered signal queue empty. -/
theorem readAllErrors_empties (buffered : List (Option AmqpErr)) :
    readAllErrors buffered = [] := by
  induction buffered with
  | nil => rfl
  | cons b rest ih => simpa [readAllErrors] using ih

/-! ### Shared concrete fixtures for the witness instantiations -/

def sampleEnv : Env := { host := "amqp-host", queue := "orders" }

def sampleMsg1 : Msg := { body := 1, timestamp := 0 }

def sampleMsg2 : Msg := { body := 2, timestamp := 0 }

def sampleMsg3 : Msg := { body := 3, timestamp := 0 }

def sampleMetricsCfg : MetricsCfg :=
  { queueLength := true, queueDelay := true, checkInterval := 60 }

def sampleConsumerCfg : ConsumerConfig :=
  { queue := "orders", tag := "t", queuePriority := 0, prefetchCount := 1,
    metrics := some sampleMetricsCfg }

end Infrarabbit

namespace Infrarabbit

/-! ### Claim theorems -/

/-- Claim C1: for every run of the engine that finishes, the output queue is
closed only after the in-flight count reached zero (the trace contains as many
completion-callback decrements as envelope increments, and as many pushes)
and after the serving loop exited: the trace ends with the in-flight wait,
the final channel release, the output-queue close and the done signal (so
nothing - in particular no push - follows the close except the done signal
that unblocks `Close`). -/
theorem close_only_after_drain (env : Env) (gens : List Gen)
    (cbs : List (Option AmqpErr))
    (hfin : (runStart env initState none gens cbs).2.2 = RunExit.finished) :
    (∃ t l, (runStart env initState none gens cbs).2.1
        = t ++ [Action.waitInFlightZero, Action.closeChannel l,
                Action.closeOutputQueue, Action.signalDone])
    ∧ trDec (runStart env initState none gens cbs).2.1
        = trInc (runStart env initState none gens cbs).2.1
    ∧ trPush (runStart env initState none gens cbs).2.1
        = trDec (runStart env initState none gens cbs).2.1 := by
  obtain ⟨h0, t, l, ht⟩ := runStart_finished_shape env gens initState none cbs hfin
  have hflow := runStart_flow env gens initState none cbs
  have hpush := runStart_push_eq_inc env gens initState none cbs
  rw [h0] at hflow
  have h00 : initState.inFlight = 0 := rfl
  refine ⟨⟨t, l, ht⟩, by omega, by omega⟩

/-- Witness for C1: a run that receives the closing flag and finishes. -/
theorem close_only_after_drain_app :
    (∃ t l, (runStart sampleEnv initState none
          [Gen.serve 1 true 5 0 [GenEvent.setClosing]] []).2.1
        = t ++ [Action.waitInFlightZero, Action.closeChannel l,
                Action.closeOutputQueue, Action.signalDone])
    ∧ trDec (runStart sampleEnv initState none
          [Gen.serve 1 true 5 0 [GenEvent.setClosing]] []).2.1
        = trInc (runStart sampleEnv initState none
          [Gen.serve 1 true 5 0 [GenEvent.setClosing]] []).2.1
    ∧ trPush (runStart sampleEnv initState none
          [Gen.serve 1 true 5 0 [GenEvent.setClosing]] []).2.1
        = trDec (runStart sampleEnv initState none
          [Gen.serve 1 true 5 0 [GenEvent.setClosing]] []).2.1 :=
  close_only_after_drain sampleEnv [Gen.serve 1 true 5 0 [GenEvent.setClosing]] [] rfl

/-- Claim C2: `Close` is idempotent - every call returns a nil error and
leaves the closing flag set, and a second call after a first one is a no-op
that observes the already-closed state and does not wait on the done
signal. -/
theorem close_idempotent :
    ∀ b : Bool,
      (Close b).2.1 = none
      ∧ (Close b).1 = true
      ∧ Close (Close b).1 = ((Close b).1, none, false) := by decide

/-- Claim C3: for every sequence of deliveries received on the broker
delivery stream within a generation, the engine emits exactly, in stream
order, one in-flight increment followed by the push of the corresponding
envelope for each delivery. -/
theorem deliveries_forwarded_in_order (env : Env) (ctx : GenCtx) (s : LoopState)
    (hs : s.isClosed = false) (msgs : List (Msg × Int)) :
    (runServe env ctx s (msgs.map fun p => GenEvent.delivery p.1 p.2)).2.1
      = (msgs.map fun p =>
          [Action.incInFlight,
           Action.push { msg := p.1, host := env.host, queue := env.queue }]).flatten := by
  induction msgs generalizing s with
  | nil => simp [runServe, hs]
  | cons m rest ih =>
    have hrec := ih { s with lastUsed := m.2, inFlight := s.inFlight + 1 } hs
    simp only [hs] at hrec
    simp [runServe, hs, serveStep, hrec]

/-- Witness for C3: the spec scenario - three deliveries appear on the output
in order, each preceded by its in-flight increment. -/
theorem deliveries_forwarded_in_order_app :
    (runServe sampleEnv (mkCtx 1 true 5) initState
        ([(sampleMsg1, (10 : Int)), (sampleMsg2, 11), (sampleMsg3, 12)].map
          fun p => GenEvent.delivery p.1 p.2)).2.1
      = ([(sampleMsg1, (10 : Int)), (sampleMsg2, 11), (sampleMsg3, 12)].map fun p =>
          [Action.incInFlight,
           Action.push { msg := p.1, host := sampleEnv.host,
                         queue := sampleEnv.queue }]).flatten :=
  deliveries_forwarded_in_order sampleEnv (mkCtx 1 true 5) initState rfl
    [(sampleMsg1, 10), (sampleMsg2, 11), (sampleMsg3, 12)]

/-- Claim C4: on a heartbeat tick during serving, if the time since the last
delivery exceeds the five-minute staleness window or the out-of-band error
flag is set, the engine closes only the channel (never the connection) and
restarts the reconnect loop; otherwise the tick changes nothing. -/
theorem heartbeat_staleness_rebuild (env : Env) (ctx : GenCtx) (s : LoopState)
    (now : Int) :
    ((heartbeatReconnectionInterval < now - s.lastUsed ∨ s.needRecreate = true) →
      serveStep env ctx s (GenEvent.heartbeat now)
        = (StepOut.restart s,
            (if s.needRecreate then [Action.logErr] else [])
              ++ [Action.closeChannel (some ctx.chanId)]))
    ∧ (¬(heartbeatReconnectionInterval < now - s.lastUsed) ∧ s.needRecreate = false →
      serveStep env ctx s (GenEvent.heartbeat now) = (StepOut.cont s, [])) := by
  constructor
  · intro h
    simp [serveStep, h]
  · intro h
    simp [serveStep, h.1, h.2]

/-- Witness for C4: a stale tick rebuilds the channel; a fresh tick with a
clear flag is a no-op. -/
theorem heartbeat_staleness_rebuild_app :
    (serveStep sampleEnv (mkCtx 1 true 5) initState (GenEvent.heartbeat 301)
      = (StepOut.restart initState, [Action.closeChannel (some 5)]))
    ∧ (serveStep sampleEnv (mkCtx 1 true 5) initState (GenEvent.heartbeat 100)
      = (StepOut.cont initState, [])) :=
  ⟨(heartbeat_staleness_rebuild sampleEnv (mkCtx 1 true 5) initState 301).1
      (by decide),
   (heartbeat_staleness_rebuild sampleEnv (mkCtx 1 true 5) initState 100).2
      (by decide)⟩

/-- Claim C5: the engine subscribes to connection-level close-signals exactly
when the acquisition reported the connection as newly created; with a
shared/reused pooled connection the signal arm is inert - it neither acts nor
restarts - and no serving run ever closes the connection. -/
theorem conn_signal_subscription_iff_new :
    (∀ (conn : Nat) (isNewConn : Bool) (chanId : Nat),
        (mkCtx conn isNewConn chanId).subConn = isNewConn)
    ∧ (∀ (env : Env) (conn chanId : Nat) (s : LoopState)
        (closeErr : Option AmqpErr) (isOpen : Bool),
        serveStep env (mkCtx conn false chanId) s (GenEvent.connClose closeErr isOpen)
          = (StepOut.cont s, []))
    ∧ (∀ (env : Env) (conn chanId : Nat) (s : LoopState) (evs : List GenEvent)
        (k : Nat),
        Action.closeConnection k ∉ (runServe env (mkCtx conn false chanId) s evs).2.1) := by
  refine ⟨fun _ _ _ => rfl, ?_, ?_⟩
  · intro env conn chanId s closeErr isOpen
    simp [serveStep, mkCtx]
  · intro env conn chanId s evs k hmem
    have h := runServe_no_closeConn env (mkCtx conn false chanId) rfl evs s
    have hh := List.countP_eq_zero.mp h _ hmem
    simp [isCloseConnAct] at hh

/-- Witness for C5: with a reused connection, a nil-error close-signal is
inert and a concrete serving run never closes the connection. -/
theorem conn_signal_subscription_iff_new_app :
    (serveStep sampleEnv (mkCtx 1 false 5) initState (GenEvent.connClose none false)
      = (StepOut.cont initState, []))
    ∧ Action.closeConnection 1 ∉
        (runServe sampleEnv (mkCtx 1 false 5) initState
          [GenEvent.connClose none false, GenEvent.heartbeat 301]).2.1 :=
  ⟨conn_signal_subscription_iff_new.2.1 sampleEnv 1 5 initState none false,
   conn_signal_subscription_iff_new.2.2 sampleEnv 1 5 initState
     [GenEvent.connClose none false, GenEvent.heartbeat 301] 1⟩

/-- Claim C6: every value received on a monitored connection or channel
close-signal source - a non-nil error, or the nil value produced by the
source being closed - is treated as a fault: the engine spawns the
asynchronous buffered-signal drain (which empties the buffer), closes the
faulted resource through the pool (the connection for a connection signal,
only the channel for a channel signal), and restarts the reconnect loop; a
nil close value never continues serving as success. -/
theorem close_signal_always_fault (env : Env) (ctx : GenCtx) (s : LoopState)
    (closeErr : Option AmqpErr) (isOpen : Bool)
    (hsub : ctx.subConn = true)
    (hrecv : closeErr.isSome = true ∨ isOpen = false) :
    serveStep env ctx s (GenEvent.connClose closeErr isOpen)
      = (StepOut.restart s,
          (if closeErr.isSome then [Action.logErr] else [])
            ++ [Action.spawnDrain, Action.closeConnection ctx.conn])
    ∧ serveStep env ctx s (GenEvent.chanClose closeErr isOpen)
      = (StepOut.restart s,
          (if closeErr.isSome then [Action.logErr] else [])
            ++ [Action.spawnDrain, Action.closeChannel (some ctx.chanId)])
    ∧ (∀ buffered : List (Option AmqpErr), readAllErrors buffered = []) := by
  refine ⟨?_, ?_, readAllErrors_empties⟩
  · simp [serveStep, hsub, hrecv]
  · simp [serveStep, hrecv]

/-- Witness for C6: the nil close value (closed signal source) is a fault on
both the connection and the channel paths. -/
theorem close_signal_always_fault_app :
    serveStep sampleEnv (mkCtx 1 true 5) initState (GenEvent.connClose none false)
      = (StepOut.restart initState,
          [Action.spawnDrain, Action.closeConnection 1])
    ∧ serveStep sampleEnv (mkCtx 1 true 5) initState (GenEvent.chanClose none false)
      = (StepOut.restart initState,
          [Action.spawnDrain, Action.closeChannel (some 5)])
    ∧ readAllErrors [some { code := 1 }, none] = [] :=
  ⟨(close_signal_always_fault sampleEnv (mkCtx 1 true 5) initState none false rfl
      (Or.inr rfl)).1,
   (close_signal_always_fault sampleEnv (mkCtx 1 true 5) initState none false rfl
      (Or.inr rfl)).2.1,
   (close_signal_always_fault sampleEnv (mkCtx 1 true 5) initState none false rfl
      (Or.inr rfl)).2.2 [some { code := 1 }, none]⟩

/-- A run over failure-only generations keeps the state unchanged, stays in
the loop (blocked on its environment rather than terminating), and sleeps the
fixed backoff exactly once per failed acquisition. -/
theorem runStart_failgens (env : Env) :
    ∀ (gens : List Gen), (∀ g ∈ gens, isFailGen g = true) →
      ∀ (s : LoopState) (lastChan : Option Nat) (cbs : List (Option AmqpErr)),
        s.isClosed = false →
        (runStart env s lastChan gens cbs).1 = s
        ∧ (runStart env s lastChan gens cbs).2.2 = RunExit.blocked
        ∧ trSleep (runStart env s lastChan gens cbs).2.1 = gens.length := by
  intro gens
  induction gens with
  | nil =>
    intro _ s lastChan cbs hcl
    simp [runStart, hcl, trSleep]
  | cons g rest ih =>
    intro hfail s lastChan cbs hcl
    have hg := hfail g (List.mem_cons_self g rest)
    have hrest : ∀ g2 ∈ rest, isFailGen g2 = true :=
      fun g2 hg2 => hfail g2 (List.mem_cons_of_mem g hg2)
    cases g with
    | getFail =>
      have ih1 := ih hrest s lastChan cbs hcl
      simp only [runStart, hcl, Bool.false_eq_true, if_false]
      try dsimp only
      refine ⟨ih1.1, ih1.2.1, ?_⟩
      have ihs := ih1.2.2
      simp only [trSleep, List.countP_cons, isSleepAct] at ihs ⊢
      simp
      omega
    | chanFail conn =>
      have ih1 := ih hrest s none cbs hcl
      simp only [runStart, hcl, Bool.false_eq_true, if_false]
      try dsimp only
      refine ⟨ih1.1, ih1.2.1, ?_⟩
      have ihs := ih1.2.2
      simp only [trSleep, List.countP_cons, isSleepAct] at ihs ⊢
      simp
      omega
    | serve conn isNewConn chanId startTime events =>
      simp [isFailGen] at hg

/-- Claim C7: in `ACQUIRING`, a failed pool acquisition is logged and retried
after the fixed one-second backoff; a failed channel creation additionally
closes the just-acquired connection before the same backoff; failure-only
runs never terminate the loop (they are bounded only by the closing flag,
which sends the run straight to the drain), and every backoff anywhere is the
fixed one-second sleep - there is no exponential backoff. -/
theorem acquiring_fixed_backoff_retry (env : Env) :
    (∀ (gens : List Gen) (s : LoopState) (lastChan : Option Nat)
        (cbs : List (Option AmqpErr)) (k : Nat),
        Action.sleepBackoff k ∈ (runStart env s lastChan gens cbs).2.1 → k = 1)
    ∧ (∀ (gens : List Gen) (s : LoopState) (lastChan : Option Nat)
        (cbs : List (Option AmqpErr)),
        s.isClosed = false → (∀ g ∈ gens, isFailGen g = true) →
        (runStart env s lastChan gens cbs).1 = s
        ∧ (runStart env s lastChan gens cbs).2.2 = RunExit.blocked
        ∧ trSleep (runStart env s lastChan gens cbs).2.1 = gens.length)
    ∧ (∀ (conn : Nat) (s : LoopState) (lastChan : Option Nat) (rest : List Gen)
        (cbs : List (Option AmqpErr)),
        s.isClosed = false →
        ∃ t, (runStart env s lastChan (Gen.chanFail conn :: rest) cbs).2.1
          = Action.logErr :: Action.logErr :: Action.logErr
            :: Action.closeConnection conn :: Action.sleepBackoff 1 :: t)
    ∧ (∀ (gens : List Gen) (s : LoopState) (lastChan : Option Nat)
        (cbs : List (Option AmqpErr)),
        s.isClosed = true →
        runStart env s lastChan gens cbs = finishRun s lastChan cbs) := by
  refine ⟨runStart_sleep_one env, ?_, ?_, ?_⟩
  · intro gens s lastChan cbs hcl hfail
    exact runStart_failgens env gens hfail s lastChan cbs hcl
  · intro conn s lastChan rest cbs hcl
    refine ⟨(runStart env s none rest cbs).2.1, ?_⟩
    simp [runStart, hcl]
  · intro gens s lastChan cbs hcl
    cases gens
    all_goals simp [runStart, hcl]

/-- Witness for C7: two consecutive failures are each retried with one fixed
one-second backoff, the channel failure closing the acquired connection. -/
theorem acquiring_fixed_backoff_retry_app :
    ((runStart sampleEnv initState none [Gen.getFail, Gen.chanFail 7] []).1 = initState
      ∧ (runStart sampleEnv initState none [Gen.getFail, Gen.chanFail 7] []).2.2
          = RunExit.blocked
      ∧ trSleep (runStart sampleEnv initState none [Gen.getFail, Gen.chanFail 7] []).2.1
          = 2)
    ∧ (∃ t, (runStart sampleEnv initState none [Gen.chanFail 7] []).2.1
        = Action.logErr :: Action.logErr :: Action.logErr
          :: Action.closeConnection 7 :: Action.sleepBackoff 1 :: t) :=
  ⟨(acquiring_fixed_backoff_retry sampleEnv).2.1 [Gen.getFail, Gen.chanFail 7]
      initState none [] rfl (by decide),
   (acquiring_fixed_backoff_retry sampleEnv).2.2.1 7 initState none [] [] rfl⟩

/-- Claim C8: when the queue-delay callback is configured and the channel and
passive declare are healthy: a queue depth of zero reports a delay of exactly
0; a non-empty queue whose fetch-without-ack succeeds requeues the peeked
message (reject with requeue) and invokes the delay callback exactly when the
computed elapsed seconds are non-negative, with that value. -/
theorem metrics_queue_delay_report (cfg : ConsumerConfig) (m : MetricsCfg)
    (b : Broker) (host queue : String) (q : QueueInfo)
    (hm : cfg.metrics = some m) (hdelay : m.queueDelay = true)
    (hnil : b.chanIsNil = false) (hcl : b.chanIsClosed = false)
    (hq : b.declareRes = some q) :
    (q.messages = 0 →
      collectMetrics cfg b host queue
        = (if m.queueLength then [MetricsOut.lenCall host queue (Int.ofNat q.messages)]
           else [])
          ++ [MetricsOut.delayCall host queue 0])
    ∧ (∀ ts, q.messages ≠ 0 → b.getRes = some (some ts) →
      collectMetrics cfg b host queue
        = (if m.queueLength then [MetricsOut.lenCall host queue (Int.ofNat q.messages)]
           else [])
          ++ MetricsOut.rejectRequeue ::
            (if 0 ≤ b.now - ts then [MetricsOut.delayCall host queue (b.now - ts)]
             else [])) := by
  constructor
  · intro h0
    simp [collectMetrics, hm, hnil, hcl, hq, hdelay, h0]
  · intro ts hne hget
    simp [collectMetrics, hm, hnil, hcl, hq, hdelay, hne, hget]

def sampleBrokerEmpty : Broker :=
  { chanIsNil := false, chanIsClosed := false, declareRes := some { messages := 0 },
    getRes := none, now := 100 }

def sampleBrokerLoaded : Broker :=
  { chanIsNil := false, chanIsClosed := false, declareRes := some { messages := 2 },
    getRes := some (some 40), now := 100 }

/-- Witness for C8: depth 0 reports delay 0; a non-empty queue requeues the
peeked message and reports the non-negative elapsed seconds. -/
theorem metrics_queue_delay_report_app :
    collectMetrics sampleConsumerCfg sampleBrokerEmpty "amqp-host" "orders"
      = [MetricsOut.lenCall "amqp-host" "orders" 0,
         MetricsOut.delayCall "amqp-host" "orders" 0]
    ∧ collectMetrics sampleConsumerCfg sampleBrokerLoaded "amqp-host" "orders"
      = [MetricsOut.lenCall "amqp-host" "orders" 2, MetricsOut.rejectRequeue,
         MetricsOut.delayCall "amqp-host" "orders" 60] :=
  ⟨(metrics_queue_delay_report sampleConsumerCfg sampleMetricsCfg sampleBrokerEmpty
      "amqp-host" "orders" { messages := 0 } rfl rfl rfl rfl rfl).1 rfl,
   (metrics_queue_delay_report sampleConsumerCfg sampleMetricsCfg sampleBrokerLoaded
      "amqp-host" "orders" { messages := 2 } rfl rfl rfl rfl rfl).2 40
      (by decide) rfl⟩

/-- Claim C9: metrics collection is spawned as a fire-and-forget side task -
the serving step on a metrics tick leaves the loop state untouched and only
records the spawn; a panicking task body is recovered into a log line and
yields a plain result that cannot propagate; and the collector is a no-op
when the channel is nil or closed or no metrics are configured. -/
theorem metrics_isolated_no_op :
    (∀ (env : Env) (ctx : GenCtx) (s : LoopState),
        serveStep env ctx s GenEvent.metricsTick = (StepOut.cont s, [Action.spawnMetrics]))
    ∧ (∀ outs : List MetricsOut,
        recoverWrap (TaskResult.panicked outs) = outs ++ [MetricsOut.logPanic])
    ∧ (∀ (cfg : ConsumerConfig) (b : Broker) (host queue : String),
        b.chanIsNil = true ∨ b.chanIsClosed = true ∨ cfg.metrics = none →
        collectMetrics cfg b host queue = []) := by
  refine ⟨fun env ctx s => rfl, fun outs => rfl, ?_⟩
  intro cfg b host queue h
  rcases hm : cfg.metrics with _ | m
  · simp [collectMetrics, hm]
  · rcases h with h | h | h
    · simp [collectMetrics, hm, h]
    · simp [collectMetrics, hm, h]
    · rw [hm] at h
      cases h

/-- Witness for C9: a nil channel makes the collector a no-op. -/
theorem metrics_isolated_no_op_app :
    collectMetrics sampleConsumerCfg
      { chanIsNil := true, chanIsClosed := false,
        declareRes := some { messages := 1 }, getRes := none, now := 0 }
      "amqp-host" "orders" = [] :=
  metrics_isolated_no_op.2.2 sampleConsumerCfg
    { chanIsNil := true, chanIsClosed := false,
      declareRes := some { messages := 1 }, getRes := none, now := 0 }
    "amqp-host" "orders" (Or.inl rfl)

end Infrarabbit

namespace Infraclickhouse

/-- Claim C10: if opening the driver or the subsequent ping fails, `Connect`
returns that (wrapped, non-nil) error and leaves the container's config,
connection and collector maps completely unchanged, registering nothing. -/
theorem connect_error_leaves_container (cont : Container) (name : String)
    (cfg : ConnectionConfig) (openF : String → Except ChErr Nat)
    (pingF : Nat → Except ChErr Unit) (newCollector : Nat) :
    (∀ e, openF (GetConnectionDSN cfg) = Except.error e →
      Connect cont name cfg openF pingF newCollector
        = (cont, some (wrapf e "sql.Open"), []))
    ∧ (∀ conn e, openF (GetConnectionDSN cfg) = Except.ok conn →
        pingF conn = Except.error e →
      Connect cont name cfg openF pingF newCollector
        = (cont, some (wrapf e "conn.Ping"), [])) := by
  constructor
  · intro e he
    simp [Connect, he]
  · intro conn e hopen hping
    simp [Connect, hopen, hping]

def sampleChCfg : ConnectionConfig :=
  { dsn := "tcp://localhost:9000", maxConnections := 10, maxIdleConnections := 5,
    maxConnectionIdleTime := 60, maxConnectionLifetime := 600 }

/-- Witness for C10: a failed open and a failed ping each leave a fresh
container untouched and register nothing. -/
theorem connect_error_leaves_container_app :
    Connect NewContainer "ch" sampleChCfg
        (fun _ => Except.error { msg := "dial refused" }) (fun _ => Except.ok ()) 3
      = (NewContainer, some { msg := "sql.Open: dial refused" }, [])
    ∧ Connect NewContainer "ch" sampleChCfg
        (fun _ => Except.ok 1) (fun _ => Except.error { msg := "timeout" }) 3
      = (NewContainer, some { msg := "conn.Ping: timeout" }, []) :=
  ⟨(connect_error_leaves_container NewContainer "ch" sampleChCfg
      (fun _ => Except.error { msg := "dial refused" }) (fun _ => Except.ok ()) 3).1
      { msg := "dial refused" } rfl,
   (connect_error_leaves_container NewContainer "ch" sampleChCfg
      (fun _ => Except.ok 1) (fun _ => Except.error { msg := "timeout" }) 3).2
      1 { msg := "timeout" } rfl rfl⟩

end Infraclickhouse
